import Mathlib

set_option maxRecDepth 8192

/-!
Verification of the clipboard synchronization engine of `clipsync.py`
(Wayland ⟷ X11 clipboard mirroring).

Shallow embedding conventions:
* raw clipboard payloads (`bytes` in the source) are `List Nat`, each
  element a byte value `< 256`;
* Python strings produced by `bytes.decode` are `List Nat` of Unicode
  code points;
* every external effect of the loop body (backend reads, the
  BeautifulSoup HTML reduction, backend writes, the `clipnotify` wake)
  is an explicit input of the pure cycle function `cycle`, whose
  outputs record the write attempts the engine performs.
-/

/-! ## UTF-8 codec model

`bytes.decode('utf-8', errors='replace')` and
`str.encode('utf-8', errors='replace')` from the source are modelled by
an explicit UTF-8 state machine.  The decoder follows CPython's
behaviour (one U+FFFD per maximal invalid subpart, truncated sequences
at end of input give one U+FFFD); the encoder maps unencodable
surrogate code points to `?` (0x3F) as `errors='replace'` does. -/

/-- UTF-8 encoding of a single code point, with `errors='replace'`
behaviour (surrogates become `?`). -/
def utf8EncodeChar (c : Nat) : List Nat :=
  if c < 0x80 then [c]
  else if c < 0x800 then [0xC0 + c / 0x40, 0x80 + c % 0x40]
  else if c < 0x10000 then
    if 0xD800 ≤ c ∧ c ≤ 0xDFFF then [0x3F]
    else [0xE0 + c / 0x1000, 0x80 + c / 0x40 % 0x40, 0x80 + c % 0x40]
  else [0xF0 + c / 0x40000, 0x80 + c / 0x1000 % 0x40,
        0x80 + c / 0x40 % 0x40, 0x80 + c % 0x40]

/-- UTF-8 encoding of a code-point sequence. -/
def utf8Encode : List Nat → List Nat
  | [] => []
  | c :: cs => utf8EncodeChar c ++ utf8Encode cs

/-- One step of the replacing UTF-8 decoder: given the first byte `b`
and the remaining bytes, return the decoded code point (U+FFFD on any
ill-formed subpart) and the bytes not yet consumed. -/
def utf8Step (b : Nat) (rest : List Nat) : Nat × List Nat :=
  if b < 0x80 then (b, rest)
  else if b < 0xC2 then (0xFFFD, rest)
  else if b < 0xE0 then
    match rest with
    | [] => (0xFFFD, [])
    | c1 :: r1 =>
      if 0x80 ≤ c1 ∧ c1 ≤ 0xBF then ((b - 0xC0) * 0x40 + (c1 - 0x80), r1)
      else (0xFFFD, c1 :: r1)
  else if b < 0xF0 then
    match rest with
    | [] => (0xFFFD, [])
    | c1 :: r1 =>
      if (if b = 0xE0 then 0xA0 else 0x80) ≤ c1 ∧
          c1 ≤ (if b = 0xED then 0x9F else 0xBF) then
        match r1 with
        | [] => (0xFFFD, [])
        | c2 :: r2 =>
          if 0x80 ≤ c2 ∧ c2 ≤ 0xBF then
            ((b - 0xE0) * 0x1000 + (c1 - 0x80) * 0x40 + (c2 - 0x80), r2)
          else (0xFFFD, c2 :: r2)
      else (0xFFFD, c1 :: r1)
  else if b < 0xF5 then
    match rest with
    | [] => (0xFFFD, [])
    | c1 :: r1 =>
      if (if b = 0xF0 then 0x90 else 0x80) ≤ c1 ∧
          c1 ≤ (if b = 0xF4 then 0x8F else 0xBF) then
        match r1 with
        | [] => (0xFFFD, [])
        | c2 :: r2 =>
          if 0x80 ≤ c2 ∧ c2 ≤ 0xBF then
            match r2 with
            | [] => (0xFFFD, [])
            | c3 :: r3 =>
              if 0x80 ≤ c3 ∧ c3 ≤ 0xBF then
                ((b - 0xF0) * 0x40000 + (c1 - 0x80) * 0x1000 +
                  (c2 - 0x80) * 0x40 + (c3 - 0x80), r3)
              else (0xFFFD, c3 :: r3)
          else (0xFFFD, c2 :: r2)
      else (0xFFFD, c1 :: r1)
  else (0xFFFD, rest)

/-- Fuelled decoding loop; with fuel at least the length of the input
it consumes the whole input. -/
def utf8DecodeGo : Nat → List Nat → List Nat
  | _, [] => []
  | 0, _ :: _ => []
  | Nat.succ n, b :: rest =>
    (utf8Step b rest).1 :: utf8DecodeGo n (utf8Step b rest).2

/-- `data.decode('utf-8', errors='replace')`: decode a byte sequence to
code points, one U+FFFD per ill-formed subpart. -/
def utf8DecodeReplace (data : List Nat) : List Nat :=
  utf8DecodeGo data.length data

/-! ## Normalizer (source lines 14-34) -/

/-- Trailing-NUL stripping, `str.rstrip('\x00')`. -/
def rstripNul (s : List Nat) : List Nat :=
  List.rdropWhile (fun c => c == 0) s

/-- Membership in the strip set of `str.strip('\r\n')`. -/
def isCRLF (c : Nat) : Bool := c == 13 || c == 10

/-- Leading/trailing CR and LF stripping, `str.strip('\r\n')`. -/
def stripCRLF (s : List Nat) : List Nat :=
  List.rdropWhile isCRLF (List.dropWhile isCRLF s)

/-- `decode_utf8` from the source: decode bytes as UTF-8 with
replacement, then strip trailing NUL characters.  The Python function
returns a `str`; the model returns its code points. -/
def decode_utf8 (data : List Nat) : List Nat :=
  rstripNul (utf8DecodeReplace data)

/-- `normalize_text` from the source: decode (with trailing-NUL strip),
strip leading/trailing CR and LF, re-encode as UTF-8. -/
def normalize_text (data : List Nat) : List Nat :=
  utf8Encode (stripCRLF (decode_utf8 data))

/-- Python's `str.startswith`, computed on the character lists (the
built-in `String.startsWith` does not reduce in the kernel). -/
def str_startswith (s p : String) : Bool :=
  p.data.isPrefixOf s.data

/-- `is_text_mime` from the source. -/
def is_text_mime (mime : String) : Bool :=
  if str_startswith mime "text/" then true
  else if mime == "UTF8_STRING" || mime == "STRING" then true
  else false

/-! ## MIME selectors (source lines 40-81, 114-150)

The selectors call `list_*_targets()` in the source; the target list is
an explicit parameter here since it comes from the backend. -/

/-- `list(dict.fromkeys(targets))`: deduplication keeping the first
occurrence of each string, with `seen` the accumulator. -/
def dedupFirst : List String → List String → List String
  | _, [] => []
  | seen, t :: rest =>
    if t ∈ seen then dedupFirst seen rest
    else t :: dedupFirst (t :: seen) rest

/-- `pick_wayland_mime` from the source, parameterized by the target
list returned by `list_wayland_targets()`. -/
def pick_wayland_mime (available : List String) : String :=
  let targets := dedupFirst [] available
  if "text/uri-list" ∈ targets then "text/uri-list"
  else if "text/html" ∈ targets then "text/html"
  else
    match targets.find? (fun t => str_startswith t "image/") with
    | some t => t
    | none =>
      if "text/plain;charset=utf-8" ∈ targets then "text/plain;charset=utf-8"
      else if "text/plain" ∈ targets then "text/plain"
      else if "UTF8_STRING" ∈ targets then "UTF8_STRING"
      else "text/plain;charset=utf-8"

/-- `pick_x11_mime` from the source (no deduplication), parameterized
by the target list returned by `list_x11_targets()`. -/
def pick_x11_mime (available : List String) : String :=
  if "text/uri-list" ∈ available then "text/uri-list"
  else if "text/html" ∈ available then "text/html"
  else
    match available.find? (fun t => str_startswith t "image/") with
    | some t => t
    | none =>
      if "text/plain;charset=utf-8" ∈ available then "text/plain;charset=utf-8"
      else if "text/plain" ∈ available then "text/plain"
      else if "UTF8_STRING" ∈ available then "UTF8_STRING"
      else "text/plain;charset=utf-8"

/-- The MIME selection rule as the specification words it: first match
of exact `text/uri-list`, exact `text/html`, first `image/` prefix,
exact `text/plain;charset=utf-8`, exact `text/plain`, exact
`UTF8_STRING`, with default `text/plain;charset=utf-8`.  Stated for
refinement comparison against the two source selectors. -/
def selectMimeSpec (available : List String) : String :=
  if "text/uri-list" ∈ available then "text/uri-list"
  else if "text/html" ∈ available then "text/html"
  else
    match available.find? (fun t => str_startswith t "image/") with
    | some t => t
    | none =>
      if "text/plain;charset=utf-8" ∈ available then "text/plain;charset=utf-8"
      else if "text/plain" ∈ available then "text/plain"
      else if "UTF8_STRING" ∈ available then "UTF8_STRING"
      else "text/plain;charset=utf-8"

/-! ## Snapshots, adapters and the engine cycle (source lines 83-108, 152-279) -/

/-- A captured clipboard content: raw bytes plus MIME string. -/
structure Snapshot where
  data : List Nat
  mime : String
deriving DecidableEq

/-- `get_wayland_clipboard`: the picked MIME together with the
subprocess read result; `none` models `wl-paste` raising or timing
out, in which case the source returns `(b'', '')`. -/
def get_wayland_clipboard (targets : List String)
    (readResult : Option (List Nat)) : Snapshot :=
  match readResult with
  | some data => ⟨data, pick_wayland_mime targets⟩
  | none => ⟨[], ""⟩

/-- `get_x11_clipboard`: like `get_wayland_clipboard` for `xclip`. -/
def get_x11_clipboard (targets : List String)
    (readResult : Option (List Nat)) : Snapshot :=
  match readResult with
  | some data => ⟨data, pick_x11_mime targets⟩
  | none => ⟨[], ""⟩

/-- `set_wayland_clipboard`: the data and MIME handed to `wl-copy`;
textual MIME is remapped to `text/plain;charset=utf-8`, the payload is
passed through unchanged. -/
def set_wayland_clipboard (data : List Nat) (mime : String) : Snapshot :=
  ⟨data, if is_text_mime mime then "text/plain;charset=utf-8" else mime⟩

/-- `set_x11_clipboard`: the data and MIME handed to `xclip`, both
passed through unchanged. -/
def set_x11_clipboard (data : List Nat) (mime : String) : Snapshot :=
  ⟨data, mime⟩

/-- The engine's remembered state: `last_w_data`, `last_w_mime`,
`last_x_data`, `last_x_mime` from `main`. -/
structure EngineState where
  last_w_data : List Nat
  last_w_mime : String
  last_x_data : List Nat
  last_x_mime : String
deriving DecidableEq

/-- Which of the four decision branches of the loop body ran,
mirroring the per-branch console output of `main`. -/
inductive RuleTag
  | waylandToX11
  | x11ToWayland
  | conflict
  | noop
deriving DecidableEq

/-- External events of one loop iteration: the two backend reads (as
returned by `get_*_clipboard`), the BeautifulSoup outcome for each side
(`some cleaned` for `soup.get_text()` succeeding, `none` for an
exception), the snapshot a failure-path re-fetch returns, and whether
each backend write subprocess would succeed. -/
structure CycleInput where
  read_w : Snapshot
  read_x : Snapshot
  html_w_result : Option (List Nat)
  html_w_refetch : Snapshot
  html_x_result : Option (List Nat)
  html_x_refetch : Snapshot
  write_x_ok : Bool
  write_w_ok : Bool
deriving DecidableEq

/-- HTML stripping step of `main` (lines 210-233) for one side: only a
`text/html` snapshot is touched; on success the cleaned text becomes
the data and the MIME becomes `text/plain;charset=utf-8`; on an
exception the side is re-fetched from the backend. -/
def htmlStep (snap : Snapshot) (result : Option (List Nat))
    (refetch : Snapshot) : Snapshot :=
  if snap.mime = "text/html" then
    match result with
    | some cleaned => ⟨cleaned, "text/plain;charset=utf-8"⟩
    | none => refetch
  else snap

/-- The Wayland-side snapshot after the HTML stripping step. -/
def effW (inp : CycleInput) : Snapshot :=
  htmlStep inp.read_w inp.html_w_result inp.html_w_refetch

/-- The X11-side snapshot after the HTML stripping step. -/
def effX (inp : CycleInput) : Snapshot :=
  htmlStep inp.read_x inp.html_x_result inp.html_x_refetch

/-- `normalize_text(data) if is_text_mime(mime) else data`: the
comparison key of a snapshot (lines 237-238). -/
def norm_data (s : Snapshot) : List Nat :=
  if is_text_mime s.mime then normalize_text s.data else s.data

/-- Result of one loop iteration: the new remembered state, the write
attempt handed to each backend (if any), and which branch ran. -/
structure CycleOutput where
  state : EngineState
  write_x : Option Snapshot
  write_w : Option Snapshot
  rule : RuleTag
deriving DecidableEq

/-- The decision part of one iteration of the `while True` loop of
`main` (lines 236-279), as a pure function of the remembered state and
the cycle's external events. -/
def cycle (st : EngineState) (inp : CycleInput) : CycleOutput :=
  let w := effW inp
  let x := effX inp
  let norm_w_data := norm_data w
  let norm_x_data := norm_data x
  if w.data ≠ st.last_w_data ∧ norm_w_data ≠ norm_x_data then
    if w.data ≠ st.last_x_data then
      { state := ⟨w.data, w.mime, w.data, w.mime⟩,
        write_x := some (set_x11_clipboard w.data w.mime),
        write_w := none, rule := RuleTag.waylandToX11 }
    else
      { state := { st with last_w_data := w.data, last_w_mime := w.mime },
        write_x := none, write_w := none, rule := RuleTag.waylandToX11 }
  else if x.data ≠ st.last_x_data ∧ norm_x_data ≠ norm_w_data then
    if x.data ≠ st.last_w_data then
      { state := ⟨x.data, x.mime, x.data, x.mime⟩,
        write_x := none,
        write_w := some (set_wayland_clipboard x.data x.mime),
        rule := RuleTag.x11ToWayland }
    else
      { state := { st with last_x_data := x.data, last_x_mime := x.mime },
        write_x := none, write_w := none, rule := RuleTag.x11ToWayland }
  else if w.data ≠ st.last_w_data ∧ x.data ≠ st.last_x_data then
    if w.data ≠ st.last_x_data then
      { state := ⟨w.data, w.mime, w.data, w.mime⟩,
        write_x := some (set_x11_clipboard w.data w.mime),
        write_w := none, rule := RuleTag.conflict }
    else
      { state := { st with last_w_data := w.data, last_w_mime := w.mime },
        write_x := none, write_w := none, rule := RuleTag.conflict }
  else
    { state := ⟨(if w.data ≠ [] then w.data else st.last_w_data),
                (if w.data ≠ [] then w.mime else st.last_w_mime),
                (if x.data ≠ [] then x.data else st.last_x_data),
                (if x.data ≠ [] then x.mime else st.last_x_mime)⟩,
      write_x := none, write_w := none, rule := RuleTag.noop }

/-- Iterating the loop body over a list of cycle inputs; the loop never
terminates on its own, so any prefix of wake events is processed. -/
def runCycles (st : EngineState) : List CycleInput → EngineState
  | [] => st
  | inp :: rest => runCycles (cycle st inp).state rest

/-! ## UTF-8 codec lemmas -/

/-- Unicode scalar values as produced by the replacing decoder: below
the surrogate block or between it and 0x110000. -/
def ScalarCP (c : Nat) : Prop :=
  c < 0xD800 ∨ (0xE000 ≤ c ∧ c < 0x110000)

set_option maxHeartbeats 1600000 in
theorem utf8Step_spec (b : Nat) (rest : List Nat) :
    ScalarCP (utf8Step b rest).1 ∧ ((utf8Step b rest).1 = 0 → b = 0) ∧
    (utf8Step b rest).2.length ≤ rest.length ∧
    ∀ y ∈ (utf8Step b rest).2, y ∈ rest := by
  rcases rest with _ | ⟨c1, r1⟩
  · simp only [utf8Step]
    split_ifs <;> dsimp only <;> refine ⟨?_, ?_, ?_, ?_⟩ <;>
      first
        | (simp only [ScalarCP]; omega)
        | omega
        | (intro f; exact f.elim)
        | (simp only [List.length_cons, List.length_nil]; omega)
        | (intro y hy; exact hy)
        | (intro y hy;
           simp only [List.mem_cons, List.not_mem_nil] at hy ⊢ <;> tauto)
  · rcases r1 with _ | ⟨c2, r2⟩
    · simp only [utf8Step]
      split_ifs <;> dsimp only <;> refine ⟨?_, ?_, ?_, ?_⟩ <;>
        first
          | (simp only [ScalarCP]; omega)
          | omega
          | (intro f; exact f.elim)
          | (simp only [List.length_cons, List.length_nil]; omega)
          | (intro y hy; exact hy)
          | (intro y hy;
             simp only [List.mem_cons, List.not_mem_nil] at hy ⊢ <;> tauto)
    · rcases r2 with _ | ⟨c3, r3⟩
      · simp only [utf8Step]
        split_ifs <;> dsimp only <;> refine ⟨?_, ?_, ?_, ?_⟩ <;>
          first
            | (simp only [ScalarCP]; omega)
            | omega
            | (intro f; exact f.elim)
            | (simp only [List.length_cons, List.length_nil]; omega)
            | (intro y hy; exact hy)
            | (intro y hy;
               simp only [List.mem_cons, List.not_mem_nil] at hy ⊢ <;> tauto)
      · simp only [utf8Step]
        split_ifs <;> dsimp only <;> refine ⟨?_, ?_, ?_, ?_⟩ <;>
          first
            | (simp only [ScalarCP]; omega)
            | omega
            | (intro f; exact f.elim)
            | (simp only [List.length_cons, List.length_nil]; omega)
            | (intro y hy; exact hy)
            | (intro y hy;
               simp only [List.mem_cons, List.not_mem_nil] at hy ⊢ <;> tauto)

theorem utf8DecodeGo_fuel : ∀ (n m : Nat) (x : List Nat),
    x.length ≤ n → x.length ≤ m → utf8DecodeGo n x = utf8DecodeGo m x := by
  intro n
  induction n with
  | zero =>
    intro m x hn _
    rcases x with _ | ⟨b, r⟩
    · cases m <;> rfl
    · simp at hn
  | succ n ih =>
    intro m x hn hm
    rcases x with _ | ⟨b, r⟩
    · cases m <;> rfl
    · rcases m with _ | m
      · simp at hm
      · simp only [utf8DecodeGo]
        have hs := (utf8Step_spec b r).2.2.1
        have h1 : r.length ≤ n := by simp only [List.length_cons] at hn; omega
        have h2 : r.length ≤ m := by simp only [List.length_cons] at hm; omega
        exact congrArg _ (ih m _ (le_trans hs h1) (le_trans hs h2))

theorem utf8DecodeGo_mem : ∀ (n : Nat) (x : List Nat), x.length ≤ n →
    ∀ c ∈ utf8DecodeGo n x, ScalarCP c ∧ (c = 0 → 0 ∈ x) := by
  intro n
  induction n with
  | zero =>
    intro x hx c hc
    rcases x with _ | ⟨b, r⟩ <;> simp [utf8DecodeGo] at hc
  | succ n ih =>
    intro x hx c hc
    rcases x with _ | ⟨b, r⟩
    · simp [utf8DecodeGo] at hc
    · simp only [utf8DecodeGo, List.mem_cons] at hc
      obtain ⟨hs, hz, hlen, hmem⟩ := utf8Step_spec b r
      have hr : r.length ≤ n := by simp only [List.length_cons] at hx; omega
      rcases hc with rfl | hc
      · exact ⟨hs, fun h0 => by simp [hz h0]⟩
      · obtain ⟨hc1, hc2⟩ := ih _ (le_trans hlen hr) c hc
        exact ⟨hc1, fun h0 => List.mem_cons_of_mem b (hmem 0 (hc2 h0))⟩

theorem utf8DecodeReplace_mem (x : List Nat) :
    ∀ c ∈ utf8DecodeReplace x, ScalarCP c ∧ (c = 0 → 0 ∈ x) :=
  utf8DecodeGo_mem x.length x le_rfl

theorem utf8DecodeReplace_cons (b : Nat) (r : List Nat) (cp : Nat)
    (r2 : List Nat) (h : utf8Step b r = (cp, r2)) :
    utf8DecodeReplace (b :: r) = cp :: utf8DecodeReplace r2 := by
  have hlen : r2.length ≤ r.length := by
    have := (utf8Step_spec b r).2.2.1
    rw [h] at this
    exact this
  show utf8DecodeGo (b :: r).length (b :: r) = cp :: utf8DecodeGo r2.length r2
  simp only [List.length_cons, utf8DecodeGo, h]
  exact congrArg _ (utf8DecodeGo_fuel r.length r2.length r2 hlen le_rfl)

theorem utf8Step_ascii (b : Nat) (rest : List Nat) (h : b < 0x80) :
    utf8Step b rest = (b, rest) := by
  simp only [utf8Step]
  rw [if_pos h]

theorem utf8Step_two (b c1 : Nat) (t : List Nat) (h1 : 0xC2 ≤ b)
    (h2 : b < 0xE0) (h3 : 0x80 ≤ c1) (h4 : c1 ≤ 0xBF) :
    utf8Step b (c1 :: t) = ((b - 0xC0) * 0x40 + (c1 - 0x80), t) := by
  simp only [utf8Step]
  split_ifs <;> first | (exfalso; omega) | rfl

theorem utf8Step_three (b c1 c2 : Nat) (t : List Nat) (h1 : 0xE0 ≤ b)
    (h2 : b < 0xF0) (h3 : (if b = 0xE0 then 0xA0 else 0x80) ≤ c1)
    (h4 : c1 ≤ if b = 0xED then 0x9F else 0xBF)
    (h5 : 0x80 ≤ c2) (h6 : c2 ≤ 0xBF) :
    utf8Step b (c1 :: c2 :: t) =
      ((b - 0xE0) * 0x1000 + (c1 - 0x80) * 0x40 + (c2 - 0x80), t) := by
  simp only [utf8Step]
  split_ifs at h3 h4 ⊢ <;> first | (exfalso; omega) | rfl

theorem utf8Step_four (b c1 c2 c3 : Nat) (t : List Nat) (h1 : 0xF0 ≤ b)
    (h2 : b < 0xF5) (h3 : (if b = 0xF0 then 0x90 else 0x80) ≤ c1)
    (h4 : c1 ≤ if b = 0xF4 then 0x8F else 0xBF)
    (h5 : 0x80 ≤ c2) (h6 : c2 ≤ 0xBF) (h7 : 0x80 ≤ c3) (h8 : c3 ≤ 0xBF) :
    utf8Step b (c1 :: c2 :: c3 :: t) =
      ((b - 0xF0) * 0x40000 + (c1 - 0x80) * 0x1000 +
        (c2 - 0x80) * 0x40 + (c3 - 0x80), t) := by
  simp only [utf8Step]
  split_ifs at h3 h4 ⊢ <;> first | (exfalso; omega) | rfl

theorem utf8DecodeReplace_encodeChar (c : Nat) (hc : ScalarCP c)
    (t : List Nat) :
    utf8DecodeReplace (utf8EncodeChar c ++ t) = c :: utf8DecodeReplace t := by
  have hsc : ¬(0xD800 ≤ c ∧ c ≤ 0xDFFF) := by
    simp only [ScalarCP] at hc; omega
  have hub : c < 0x110000 := by simp only [ScalarCP] at hc; omega
  by_cases h1 : c < 0x80
  · have he : utf8EncodeChar c = [c] := by
      rw [utf8EncodeChar, if_pos h1]
    rw [he, List.singleton_append]
    exact utf8DecodeReplace_cons _ _ _ _ (utf8Step_ascii c t h1)
  · by_cases h2 : c < 0x800
    · have he : utf8EncodeChar c = [0xC0 + c / 0x40, 0x80 + c % 0x40] := by
        rw [utf8EncodeChar, if_neg h1, if_pos h2]
      rw [he, List.cons_append, List.singleton_append]
      refine utf8DecodeReplace_cons _ _ c t ?_
      rw [utf8Step_two _ _ t (by omega) (by omega) (by omega) (by omega)]
      refine Prod.ext ?_ rfl
      show _ = c
      omega
    · by_cases h3 : c < 0x10000
      · have he : utf8EncodeChar c =
            [0xE0 + c / 0x1000, 0x80 + c / 0x40 % 0x40, 0x80 + c % 0x40] := by
          rw [utf8EncodeChar, if_neg h1, if_neg h2, if_pos h3, if_neg hsc]
        rw [he, List.cons_append, List.cons_append, List.singleton_append]
        refine utf8DecodeReplace_cons _ _ c t ?_
        rw [utf8Step_three _ _ _ t (by omega) (by omega)
          (by split_ifs <;> omega) (by split_ifs <;> omega)
          (by omega) (by omega)]
        refine Prod.ext ?_ rfl
        show _ = c
        omega
      · have he : utf8EncodeChar c =
            [0xF0 + c / 0x40000, 0x80 + c / 0x1000 % 0x40,
              0x80 + c / 0x40 % 0x40, 0x80 + c % 0x40] := by
          rw [utf8EncodeChar, if_neg h1, if_neg h2, if_neg h3]
        rw [he, List.cons_append, List.cons_append, List.cons_append,
          List.singleton_append]
        refine utf8DecodeReplace_cons _ _ c t ?_
        rw [utf8Step_four _ _ _ _ t (by omega) (by omega)
          (by split_ifs <;> omega) (by split_ifs <;> omega)
          (by omega) (by omega) (by omega) (by omega)]
        refine Prod.ext ?_ rfl
        show _ = c
        omega

theorem utf8DecodeReplace_utf8Encode (s : List Nat)
    (hs : ∀ c ∈ s, ScalarCP c) : utf8DecodeReplace (utf8Encode s) = s := by
  induction s with
  | nil => rfl
  | cons c cs ih =>
    have hc : ScalarCP c := hs c (List.mem_cons_self c cs)
    have ih2 := ih (fun d hd => hs d (List.mem_cons_of_mem c hd))
    show utf8DecodeReplace (utf8EncodeChar c ++ utf8Encode cs) = c :: cs
    rw [utf8DecodeReplace_encodeChar c hc, ih2]

/-! ## Strip lemmas and normalizer facts -/

theorem dropWhile_eq_self_of {α : Type} (p : α → Bool) (l : List α)
    (h : ∀ a ∈ l, p a = false) : l.dropWhile p = l := by
  induction l with
  | nil => rfl
  | cons a t ih =>
    have hpa : p a = false := h a (List.mem_cons_self a t)
    rw [List.dropWhile_cons, if_neg (by simp [hpa])]

theorem rdropWhile_eq_self_of {α : Type} (p : α → Bool) (l : List α)
    (h : ∀ a ∈ l, p a = false) : List.rdropWhile p l = l := by
  unfold List.rdropWhile
  rw [dropWhile_eq_self_of p l.reverse (fun a ha => h a (List.mem_reverse.mp ha)),
    List.reverse_reverse]

theorem dropWhile_head_false {α : Type} (p : α → Bool) :
    ∀ (l : List α) (a : α) (t : List α), l.dropWhile p = a :: t → p a = false := by
  intro l
  induction l with
  | nil => intro a t h; simp at h
  | cons b r ih =>
    intro a t h
    rw [List.dropWhile_cons] at h
    by_cases hb : p b = true
    · rw [if_pos hb] at h; exact ih a t h
    · rw [if_neg hb] at h
      simp only [List.cons.injEq] at h
      obtain ⟨rfl, rfl⟩ := h
      simpa using hb

theorem mem_rstripNul_sub (s : List Nat) : ∀ c ∈ rstripNul s, c ∈ s :=
  fun c hc => (List.rdropWhile_prefix _ s).subset hc

theorem mem_stripCRLF_sub (s : List Nat) : ∀ c ∈ stripCRLF s, c ∈ s :=
  fun c hc =>
    (List.dropWhile_suffix isCRLF).subset
      ((List.rdropWhile_prefix isCRLF (List.dropWhile isCRLF s)).subset hc)

theorem stripCRLF_idem (l : List Nat) : stripCRLF (stripCRLF l) = stripCRLF l := by
  have hdv : List.dropWhile isCRLF
      (List.rdropWhile isCRLF (List.dropWhile isCRLF l)) =
      List.rdropWhile isCRLF (List.dropWhile isCRLF l) := by
    obtain ⟨w, hw⟩ := List.rdropWhile_prefix isCRLF (List.dropWhile isCRLF l)
    cases he : List.rdropWhile isCRLF (List.dropWhile isCRLF l) with
    | nil => rfl
    | cons a t =>
      rw [he] at hw
      have hw2 : List.dropWhile isCRLF l = a :: (t ++ w) := by
        rw [← hw, List.cons_append]
      have hpa : isCRLF a = false := dropWhile_head_false isCRLF l a (t ++ w) hw2
      rw [List.dropWhile_cons, if_neg (by simp [hpa])]
  unfold stripCRLF
  rw [hdv, List.rdropWhile_idempotent]

theorem rstripNul_eq_self (s : List Nat) (h0 : (0 : Nat) ∉ s) :
    rstripNul s = s :=
  rdropWhile_eq_self_of _ s (fun a ha => by
    have hne : a ≠ 0 := fun h => h0 (h ▸ ha)
    simpa using hne)

/-- Core of the normalizer analysis: for inputs free of NUL bytes the
normalizer is idempotent (trailing-NUL stripping never exposes new
CR/LF and the decode/encode round trip is exact). -/
theorem normalize_text_idem (x : List Nat) (h0 : (0 : Nat) ∉ x) :
    normalize_text (normalize_text x) = normalize_text x := by
  have hmem := utf8DecodeReplace_mem x
  have hs0 : (0 : Nat) ∉ utf8DecodeReplace x := fun h => h0 ((hmem 0 h).2 rfl)
  have hdec : decode_utf8 x = utf8DecodeReplace x := by
    rw [decode_utf8]
    exact rstripNul_eq_self _ hs0
  have htscalar : ∀ c ∈ stripCRLF (utf8DecodeReplace x), ScalarCP c :=
    fun c hc => (hmem c (mem_stripCRLF_sub _ c hc)).1
  have ht0 : (0 : Nat) ∉ stripCRLF (utf8DecodeReplace x) :=
    fun h => hs0 (mem_stripCRLF_sub _ 0 h)
  have hn1 : normalize_text x = utf8Encode (stripCRLF (utf8DecodeReplace x)) := by
    rw [normalize_text, hdec]
  rw [hn1, normalize_text, decode_utf8,
    utf8DecodeReplace_utf8Encode _ htscalar, rstripNul_eq_self _ ht0,
    stripCRLF_idem, ← hn1]

/-! ## Selector lemmas -/

theorem dedupFirst_mem (a : String) :
    ∀ (ts seen : List String), a ∈ dedupFirst seen ts ↔ (a ∈ ts ∧ a ∉ seen) := by
  intro ts
  induction ts with
  | nil => intro seen; simp [dedupFirst]
  | cons t rest ih =>
    intro seen
    by_cases ht : t ∈ seen
    · simp only [dedupFirst]
      rw [if_pos ht, ih seen]
      simp only [List.mem_cons]
      constructor
      · rintro ⟨h1, h2⟩; exact ⟨Or.inr h1, h2⟩
      · rintro ⟨h1, h2⟩
        rcases h1 with rfl | h1
        · exact absurd ht h2
        · exact ⟨h1, h2⟩
    · simp only [dedupFirst]
      rw [if_neg ht]
      simp only [List.mem_cons, ih (t :: seen)]
      constructor
      · rintro (rfl | ⟨h1, h2⟩)
        · exact ⟨Or.inl rfl, ht⟩
        · exact ⟨Or.inr h1, fun hs => h2 (Or.inr hs)⟩
      · rintro ⟨h1, h2⟩
        rcases h1 with rfl | h1
        · exact Or.inl rfl
        · by_cases hat : a = t
          · exact Or.inl hat
          · refine Or.inr ⟨h1, fun hs => ?_⟩
            rcases hs with hh | hh
            · exact hat hh
            · exact h2 hh

theorem dedupFirst_find (p : String → Bool) :
    ∀ (ts seen : List String), (∀ s ∈ seen, p s = false) →
      (dedupFirst seen ts).find? p = ts.find? p := by
  intro ts
  induction ts with
  | nil => intro seen _; rfl
  | cons t rest ih =>
    intro seen h
    by_cases ht : t ∈ seen
    · simp only [dedupFirst]
      rw [if_pos ht, ih seen h,
        List.find?_cons_of_neg rest (by simp [h t ht])]
    · simp only [dedupFirst]
      rw [if_neg ht]
      by_cases hpt : p t = true
      · rw [List.find?_cons_of_pos _ hpt, List.find?_cons_of_pos _ hpt]
      · rw [List.find?_cons_of_neg _ hpt, List.find?_cons_of_neg _ hpt]
        refine ih (t :: seen) ?_
        intro s hs
        rcases List.mem_cons.mp hs with rfl | hs
        · simpa using hpt
        · exact h s hs

/-! ## Engine lemmas -/

theorem htmlStep_not_html (snap : Snapshot) (r : Option (List Nat))
    (f : Snapshot) (h : snap.mime ≠ "text/html") : htmlStep snap r f = snap := by
  unfold htmlStep
  rw [if_neg h]

/-! ## Claim theorems -/

/-- C5: for every list of advertised target strings, both the Wayland
and the X11 selector return the first match of the fixed priority order
(exact `text/uri-list`, exact `text/html`, first `image/` prefix, exact
`text/plain;charset=utf-8`, exact `text/plain`, exact `UTF8_STRING`,
default `text/plain;charset=utf-8`), captured by `selectMimeSpec`; both
are total functions, so exactly one MIME is selected and no error is
raised, and the empty list yields the default. -/
theorem c5_mime_selector (ts : List String) :
    pick_wayland_mime ts = selectMimeSpec ts ∧
    pick_x11_mime ts = selectMimeSpec ts ∧
    pick_wayland_mime [] = "text/plain;charset=utf-8" := by
  refine ⟨?_, rfl, by decide⟩
  have hmem : ∀ a : String, a ∈ dedupFirst [] ts ↔ a ∈ ts := by
    intro a
    rw [dedupFirst_mem]
    simp
  have hfind : (dedupFirst [] ts).find? (fun t => str_startswith t "image/") =
      ts.find? (fun t => str_startswith t "image/") :=
    dedupFirst_find _ ts [] (by simp)
  simp only [pick_wayland_mime, selectMimeSpec, hfind, hmem]

/-- C2: no-echo guard.  In a cycle in which only one side's raw data
differs from its remembered snapshot, if the unchanged side's
remembered raw data equals the changed side's current raw data, the
engine performs no write back to the unchanged side; stated for both
orientations (Wayland unchanged / X11 changed, and X11 unchanged /
Wayland changed). -/
theorem c2_no_echo (st : EngineState) (inp : CycleInput) :
    ((effX inp).data ≠ st.last_x_data → (effW inp).data = st.last_w_data →
      st.last_w_data = (effX inp).data → (cycle st inp).write_w = none) ∧
    ((effW inp).data ≠ st.last_w_data → (effX inp).data = st.last_x_data →
      st.last_x_data = (effW inp).data → (cycle st inp).write_x = none) := by
  constructor
  · intro _ _ h3
    simp only [cycle]
    split_ifs <;> simp_all
  · intro _ _ h3
    simp only [cycle]
    split_ifs <;> simp_all

/-- C2 witness state: Wayland remembers the value X11 just changed to. -/
def c2wSt : EngineState :=
  ⟨[104], "text/plain;charset=utf-8", [103], "text/plain;charset=utf-8"⟩

/-- C2 witness state for the mirrored orientation. -/
def c2wSt2 : EngineState :=
  ⟨[103], "text/plain;charset=utf-8", [104], "text/plain;charset=utf-8"⟩

/-- C2 witness cycle input: both reads return the same byte. -/
def c2wInp : CycleInput :=
  ⟨⟨[104], "text/plain;charset=utf-8"⟩, ⟨[104], "text/plain;charset=utf-8"⟩,
    none, ⟨[], ""⟩, none, ⟨[], ""⟩, true, true⟩

theorem c2_no_echo_witness :
    (cycle c2wSt c2wInp).write_w = none ∧
    (cycle c2wSt2 c2wInp).write_x = none :=
  ⟨(c2_no_echo c2wSt c2wInp).1 (by decide) (by decide) (by decide),
   (c2_no_echo c2wSt2 c2wInp).2 (by decide) (by decide) (by decide)⟩

/-- C1 (amended): after any cycle that performed a write (a successful
propagation in either direction), the next cycle is a Rule-D no-op,
provided the next cycle's snapshots after HTML reduction carry raw
bytes equal to the values just remembered; it performs no write in
either direction and only refreshes remembered state for non-empty
sides.  (The original claim, conditioning only the raw backend reads,
fails when HTML reduction rewrites the re-read data; see the
counterexample.) -/
theorem c1_stability (st : EngineState) (inp1 inp2 : CycleInput)
    (hprop : (cycle st inp1).write_x ≠ none ∨ (cycle st inp1).write_w ≠ none)
    (hw : (effW inp2).data = (cycle st inp1).state.last_w_data)
    (hx : (effX inp2).data = (cycle st inp1).state.last_x_data) :
    (cycle ((cycle st inp1).state) inp2).write_x = none ∧
    (cycle ((cycle st inp1).state) inp2).write_w = none ∧
    (cycle ((cycle st inp1).state) inp2).rule = RuleTag.noop ∧
    (cycle ((cycle st inp1).state) inp2).state =
      ⟨(cycle st inp1).state.last_w_data,
       (if (effW inp2).data ≠ [] then (effW inp2).mime
        else (cycle st inp1).state.last_w_mime),
       (cycle st inp1).state.last_x_data,
       (if (effX inp2).data ≠ [] then (effX inp2).mime
        else (cycle st inp1).state.last_x_mime)⟩ := by
  set st1 := (cycle st inp1).state
  simp only [cycle]
  rw [if_neg (fun hcon => hcon.1 hw), if_neg (fun hcon => hcon.1 hx),
    if_neg (fun hcon => hcon.1 hw)]
  refine ⟨rfl, rfl, rfl, ?_⟩
  simp only [EngineState.mk.injEq]
  refine ⟨?_, trivial, ?_, trivial⟩
  · split_ifs with h
    · exact hw
    · rfl
  · split_ifs with h
    · exact hx
    · rfl

/-- C1 witness initial state. -/
def c1wSt : EngineState := ⟨[], "", [], ""⟩

/-- C1 witness first cycle: Wayland has new plain text, X11 is empty. -/
def c1wInp1 : CycleInput :=
  ⟨⟨[111, 110, 101], "text/plain"⟩, ⟨[], ""⟩,
    none, ⟨[], ""⟩, none, ⟨[], ""⟩, true, true⟩

/-- C1 witness second cycle: both reads return the propagated value. -/
def c1wInp2 : CycleInput :=
  ⟨⟨[111, 110, 101], "text/plain"⟩, ⟨[111, 110, 101], "text/plain"⟩,
    none, ⟨[], ""⟩, none, ⟨[], ""⟩, true, true⟩

theorem c1_stability_witness :
    (cycle ((cycle c1wSt c1wInp1).state) c1wInp2).write_x = none ∧
    (cycle ((cycle c1wSt c1wInp1).state) c1wInp2).write_w = none ∧
    (cycle ((cycle c1wSt c1wInp1).state) c1wInp2).rule = RuleTag.noop := by
  have h := c1_stability c1wSt c1wInp1 c1wInp2
    (Or.inl (by decide)) (by decide) (by decide)
  exact ⟨h.1, h.2.1, h.2.2.1⟩

/-- C1 counterexample initial state. -/
def c1cexSt : EngineState := ⟨[], "", [], ""⟩

/-- C1 counterexample first cycle: the Wayland read reports HTML whose
reduction fails, the failure-path re-fetch returns the HTML bytes of
`<p>hi</p>`, and they are propagated (still tagged `text/html`). -/
def c1cexInp1 : CycleInput :=
  ⟨⟨[60, 120, 62], "text/html"⟩, ⟨[], ""⟩,
    none, ⟨[60, 112, 62, 104, 105, 60, 47, 112, 62], "text/html"⟩,
    none, ⟨[], ""⟩, true, true⟩

/-- C1 counterexample second cycle: both backends return exactly the
remembered bytes (no user action), still advertised as `text/html`, and
this time the reduction succeeds, yielding `hi`. -/
def c1cexInp2 : CycleInput :=
  ⟨⟨[60, 112, 62, 104, 105, 60, 47, 112, 62], "text/html"⟩,
    ⟨[60, 112, 62, 104, 105, 60, 47, 112, 62], "text/html"⟩,
    some [104, 105], ⟨[], ""⟩, some [104, 105], ⟨[], ""⟩, true, true⟩

/-- C1 counterexample: a cycle propagates (performs a write), the very
next cycle's backend reads return raw bytes equal to the remembered
values for both sides, and yet the engine writes again (the HTML
reduction changed the compared data), refuting the claim as stated. -/
theorem c1_stability_counterexample :
    (cycle c1cexSt c1cexInp1).write_x ≠ none ∧
    c1cexInp2.read_w.data = (cycle c1cexSt c1cexInp1).state.last_w_data ∧
    c1cexInp2.read_x.data = (cycle c1cexSt c1cexInp1).state.last_x_data ∧
    (cycle ((cycle c1cexSt c1cexInp1).state) c1cexInp2).write_x ≠ none := by
  decide

/-- C3 (amended): a failed backend read yields the empty snapshot
`(b'', '')` and the cycle, a total function, completes; the empty
snapshot triggers no write to the other backend provided the failed
side's remembered data is also empty.  (The original claim, with no
condition on remembered state, fails: when the failed side's remembered
data is non-empty, the empty snapshot counts as a change and the engine
writes empty data to the other backend; see the counterexample.) -/
theorem c3_read_failure (targets : List String) (st : EngineState)
    (inp : CycleInput) :
    get_wayland_clipboard targets none = ⟨[], ""⟩ ∧
    get_x11_clipboard targets none = ⟨[], ""⟩ ∧
    (inp.read_w = ⟨[], ""⟩ → st.last_w_data = [] →
      (cycle st inp).write_x = none) ∧
    (inp.read_x = ⟨[], ""⟩ → st.last_x_data = [] →
      (cycle st inp).write_w = none) := by
  refine ⟨rfl, rfl, ?_, ?_⟩
  · intro h1 h2
    have he : effW inp = ⟨[], ""⟩ := by
      rw [effW, h1]
      exact htmlStep_not_html _ _ _ (by decide)
    simp only [cycle, he, h2]
    split_ifs <;> simp_all
  · intro h1 h2
    have he : effX inp = ⟨[], ""⟩ := by
      rw [effX, h1]
      exact htmlStep_not_html _ _ _ (by decide)
    simp only [cycle, he, h2]
    split_ifs <;> simp_all

/-- C3 witness state: both sides remember nothing. -/
def c3wSt : EngineState := ⟨[], "", [], ""⟩

/-- C3 witness cycle input: both backend reads failed. -/
def c3wInp : CycleInput :=
  ⟨⟨[], ""⟩, ⟨[], ""⟩, none, ⟨[], ""⟩, none, ⟨[], ""⟩, true, true⟩

theorem c3_read_failure_witness :
    get_wayland_clipboard ["text/plain"] none = ⟨[], ""⟩ ∧
    (cycle c3wSt c3wInp).write_x = none ∧
    (cycle c3wSt c3wInp).write_w = none :=
  ⟨(c3_read_failure ["text/plain"] c3wSt c3wInp).1,
   (c3_read_failure ["text/plain"] c3wSt c3wInp).2.2.1 (by decide) (by decide),
   (c3_read_failure ["text/plain"] c3wSt c3wInp).2.2.2 (by decide) (by decide)⟩

/-- C3 counterexample state: both sides remember the text `hi`. -/
def c3cexSt : EngineState := ⟨[104, 105], "text/plain", [104, 105], "text/plain"⟩

/-- C3 counterexample input: the Wayland read failed (empty snapshot),
the X11 read returns the unchanged remembered value. -/
def c3cexInp : CycleInput :=
  ⟨⟨[], ""⟩, ⟨[104, 105], "text/plain"⟩,
    none, ⟨[], ""⟩, none, ⟨[], ""⟩, true, true⟩

/-- C3 counterexample: a failed Wayland read alone (X11 unchanged)
makes the engine write the empty snapshot to the X11 backend, refuting
"the empty snapshot produced by the failed read alone never causes a
write to the other backend". -/
theorem c3_read_failure_counterexample :
    c3cexInp.read_w = ⟨[], ""⟩ ∧
    c3cexInp.read_x.data = c3cexSt.last_x_data ∧
    (cycle c3cexSt c3cexInp).write_x = some ⟨[], ""⟩ := by decide

/-- C4: conflict resolution outcome.  From a state whose remembered
snapshots differ from both fresh values, a cycle reading
`(b"one", "text/plain")` on Wayland and `(b"two", "text/plain")` on X11
writes `b"one"` to the X11 backend (under the MIME it propagates,
`text/plain`) and leaves both remembered snapshots holding `b"one"`
with that MIME. -/
theorem c4_conflict_outcome (st : EngineState) (inp : CycleInput)
    (hw : inp.read_w = ⟨[111, 110, 101], "text/plain"⟩)
    (hx : inp.read_x = ⟨[116, 119, 111], "text/plain"⟩)
    (h1 : st.last_w_data ≠ [111, 110, 101])
    (h2 : st.last_w_data ≠ [116, 119, 111])
    (h3 : st.last_x_data ≠ [111, 110, 101])
    (h4 : st.last_x_data ≠ [116, 119, 111]) :
    (cycle st inp).write_x = some ⟨[111, 110, 101], "text/plain"⟩ ∧
    (cycle st inp).write_w = none ∧
    (cycle st inp).state =
      ⟨[111, 110, 101], "text/plain", [111, 110, 101], "text/plain"⟩ := by
  have hew : effW inp = ⟨[111, 110, 101], "text/plain"⟩ := by
    rw [effW, hw]
    exact htmlStep_not_html _ _ _ (by decide)
  have hex : effX inp = ⟨[116, 119, 111], "text/plain"⟩ := by
    rw [effX, hx]
    exact htmlStep_not_html _ _ _ (by decide)
  have hn1 : norm_data ⟨[111, 110, 101], "text/plain"⟩ = [111, 110, 101] := by
    decide
  have hn2 : norm_data ⟨[116, 119, 111], "text/plain"⟩ = [116, 119, 111] := by
    decide
  simp only [cycle, hew, hex, hn1, hn2]
  rw [if_pos ⟨Ne.symm h1, by decide⟩, if_pos (Ne.symm h3)]
  exact ⟨rfl, rfl, rfl⟩

/-- C4 witness state: both sides remember nothing. -/
def c4wSt : EngineState := ⟨[], "", [], ""⟩

/-- C4 witness input: the conflicting reads of the scenario. -/
def c4wInp : CycleInput :=
  ⟨⟨[111, 110, 101], "text/plain"⟩, ⟨[116, 119, 111], "text/plain"⟩,
    none, ⟨[], ""⟩, none, ⟨[], ""⟩, true, true⟩

theorem c4_conflict_outcome_witness :
    (cycle c4wSt c4wInp).write_x = some ⟨[111, 110, 101], "text/plain"⟩ ∧
    (cycle c4wSt c4wInp).state =
      ⟨[111, 110, 101], "text/plain", [111, 110, 101], "text/plain"⟩ := by
  have h := c4_conflict_outcome c4wSt c4wInp rfl rfl
    (by decide) (by decide) (by decide) (by decide)
  exact ⟨h.1, h.2.2⟩

/-- C6 (amended): for textual MIME the normalizer is idempotent on
every byte sequence that contains no NUL byte.  (As stated for all
inputs the claim fails: stripping trailing NULs happens before
stripping CR/LF, so CR/LF stripping can expose a trailing NUL that a
second application then removes; see the counterexample `b"a\x00\n"`.)
-/
theorem c6_normalizer_idempotent (mime : String) (x : List Nat)
    (hm : is_text_mime mime = true) (h0 : (0 : Nat) ∉ x) :
    norm_data ⟨norm_data ⟨x, mime⟩, mime⟩ = norm_data ⟨x, mime⟩ := by
  have hsnap : ∀ d : List Nat, norm_data ⟨d, mime⟩ = normalize_text d := by
    intro d
    rw [norm_data, if_pos]
    exact hm
  rw [hsnap, hsnap]
  exact normalize_text_idem x h0

theorem c6_normalizer_idempotent_witness :
    norm_data ⟨norm_data ⟨[104, 105, 10], "text/plain"⟩, "text/plain"⟩ =
      norm_data ⟨[104, 105, 10], "text/plain"⟩ :=
  c6_normalizer_idempotent "text/plain" [104, 105, 10] (by decide) (by decide)

/-- C6 counterexample: on `b"a\x00\n"` under `text/plain`, one
application of the normalizer yields `b"a\x00"` but a second yields
`b"a"`, so `normalize(normalize(x, mime), mime) = normalize(x, mime)`
fails. -/
theorem c6_normalizer_counterexample :
    norm_data ⟨[97, 0, 10], "text/plain"⟩ = [97, 0] ∧
    norm_data ⟨norm_data ⟨[97, 0, 10], "text/plain"⟩, "text/plain"⟩ = [97] ∧
    norm_data ⟨norm_data ⟨[97, 0, 10], "text/plain"⟩, "text/plain"⟩ ≠
      norm_data ⟨[97, 0, 10], "text/plain"⟩ := by decide

/-- C7 (amended): when a side's snapshot has MIME `text/html` and the
HTML reduction raises, the cycle (a total function) continues with the
snapshot returned by the fresh backend re-read, exactly as returned —
its data and its mime — and does not reuse the already-read bytes.
(The original claim's "mime = text/html still set" fails: the re-read
picks its MIME afresh, so it is `text/html` only when the clipboard
still advertises HTML; see the counterexample.) -/
theorem c7_html_failure (inp : CycleInput) :
    (inp.read_w.mime = "text/html" → inp.html_w_result = none →
      effW inp = inp.html_w_refetch) ∧
    (inp.read_x.mime = "text/html" → inp.html_x_result = none →
      effX inp = inp.html_x_refetch) := by
  constructor
  · intro h1 h2
    unfold effW htmlStep
    rw [if_pos h1, h2]
  · intro h1 h2
    unfold effX htmlStep
    rw [if_pos h1, h2]

/-- C7 witness input: both sides report HTML, both reductions fail,
each re-fetch returns fresh content. -/
def c7wInp : CycleInput :=
  ⟨⟨[60, 120, 62], "text/html"⟩, ⟨[60, 121, 62], "text/html"⟩,
    none, ⟨[120], "text/html"⟩, none, ⟨[121], "text/html"⟩, true, true⟩

theorem c7_html_failure_witness :
    effW c7wInp = c7wInp.html_w_refetch ∧
    effX c7wInp = c7wInp.html_x_refetch :=
  ⟨(c7_html_failure c7wInp).1 rfl rfl,
   (c7_html_failure c7wInp).2 rfl rfl⟩

/-- C7 counterexample input: the first Wayland read reports HTML, the
reduction fails, and the fresh re-read returns plain text (the
clipboard changed between the two reads, the race the specification
itself acknowledges). -/
def c7cexInp : CycleInput :=
  ⟨⟨[60, 120, 62], "text/html"⟩, ⟨[], ""⟩,
    none, ⟨[120], "text/plain"⟩, none, ⟨[], ""⟩, true, true⟩

/-- C7 counterexample: after a failed reduction the side's effective
snapshot carries the re-read's MIME, here `text/plain`, not
`text/html` as the claim states. -/
theorem c7_html_failure_counterexample :
    c7cexInp.read_w.mime = "text/html" ∧
    c7cexInp.html_w_result = none ∧
    (effW c7cexInp).mime ≠ "text/html" := by decide

/-- C8: write-failure state update.  The engine's state transition and
the write attempts it makes are independent of whether the backend
write subprocesses succeed (the source swallows every exception of
`set_*_clipboard`), so after a failed write the remembered snapshots
are exactly what they would be after a successful one; and the loop
continues past the cycle (`runCycles` recurses on the new state
unconditionally). -/
theorem c8_write_failure (st : EngineState) (inp : CycleInput)
    (b1 b2 : Bool) (rest : List CycleInput) :
    (cycle st { inp with write_x_ok := b1, write_w_ok := b2 }).state =
      (cycle st inp).state ∧
    (cycle st { inp with write_x_ok := b1, write_w_ok := b2 }).write_x =
      (cycle st inp).write_x ∧
    (cycle st { inp with write_x_ok := b1, write_w_ok := b2 }).write_w =
      (cycle st inp).write_w ∧
    runCycles st (inp :: rest) = runCycles (cycle st inp).state rest := by
  cases inp
  exact ⟨rfl, rfl, rfl, rfl⟩

/-- C9: raw-bytes propagation invariant.  Every write the cycle
attempts hands the backend exactly the post-HTML-reduction raw snapshot
of this cycle (the adapters pass the payload through unchanged), and
every remembered-data field ends the cycle holding either its previous
value or the raw data of one of the two current snapshots; the
normalized comparison key is never what is written or stored. -/
theorem c9_raw_bytes (st : EngineState) (inp : CycleInput) :
    ((cycle st inp).write_x = none ∨
      (cycle st inp).write_x =
        some (set_x11_clipboard (effW inp).data (effW inp).mime)) ∧
    ((cycle st inp).write_w = none ∨
      (cycle st inp).write_w =
        some (set_wayland_clipboard (effX inp).data (effX inp).mime)) ∧
    (set_x11_clipboard (effW inp).data (effW inp).mime).data =
      (effW inp).data ∧
    (set_wayland_clipboard (effX inp).data (effX inp).mime).data =
      (effX inp).data ∧
    ((cycle st inp).state.last_w_data = st.last_w_data ∨
      (cycle st inp).state.last_w_data = (effW inp).data ∨
      (cycle st inp).state.last_w_data = (effX inp).data) ∧
    ((cycle st inp).state.last_x_data = st.last_x_data ∨
      (cycle st inp).state.last_x_data = (effX inp).data ∨
      (cycle st inp).state.last_x_data = (effW inp).data) := by
  simp only [cycle]
  split_ifs <;> refine ⟨?_, ?_, rfl, rfl, ?_, ?_⟩ <;> simp

/-- C10: conflict-branch reachability.  The both-changed conflict
branch runs only when the two sides' normalized comparison keys are
equal (otherwise Rule A or Rule B would already have fired), so any
write it performs transfers content whose normalized key equals the X11
side's current normalized key. -/
theorem c10_conflict_reachability (st : EngineState) (inp : CycleInput)
    (h : (cycle st inp).rule = RuleTag.conflict) :
    norm_data (effW inp) = norm_data (effX inp) ∧
    ((cycle st inp).write_x = none ∨
      ((cycle st inp).write_x =
        some (set_x11_clipboard (effW inp).data (effW inp).mime) ∧
       norm_data ⟨(effW inp).data, (effW inp).mime⟩ =
        norm_data (effX inp))) := by
  simp only [cycle] at h ⊢
  by_cases hA : (effW inp).data ≠ st.last_w_data ∧
      norm_data (effW inp) ≠ norm_data (effX inp)
  · rw [if_pos hA] at h
    by_cases hg : (effW inp).data ≠ st.last_x_data
    · rw [if_pos hg] at h
      exact RuleTag.noConfusion h
    · rw [if_neg hg] at h
      exact RuleTag.noConfusion h
  · rw [if_neg hA] at h ⊢
    by_cases hB : (effX inp).data ≠ st.last_x_data ∧
        norm_data (effX inp) ≠ norm_data (effW inp)
    · rw [if_pos hB] at h
      by_cases hg : (effX inp).data ≠ st.last_w_data
      · rw [if_pos hg] at h
        exact RuleTag.noConfusion h
      · rw [if_neg hg] at h
        exact RuleTag.noConfusion h
    · rw [if_neg hB] at h ⊢
      by_cases hC : (effW inp).data ≠ st.last_w_data ∧
          (effX inp).data ≠ st.last_x_data
      · rw [if_pos hC] at h ⊢
        have hnorm : norm_data (effW inp) = norm_data (effX inp) := by
          by_contra hne
          exact hA ⟨hC.1, hne⟩
        refine ⟨hnorm, ?_⟩
        by_cases hg : (effW inp).data ≠ st.last_x_data
        · rw [if_pos hg]
          exact Or.inr ⟨rfl, hnorm⟩
        · rw [if_neg hg]
          exact Or.inl rfl
      · rw [if_neg hC] at h
        exact RuleTag.noConfusion h

/-- C10 witness state. -/
def c10wSt : EngineState := ⟨[97], "text/plain", [98], "text/plain"⟩

/-- C10 witness input: both sides changed, to values whose normalized
keys coincide (`x\n` versus `x`), driving the conflict branch. -/
def c10wInp : CycleInput :=
  ⟨⟨[120, 10], "text/plain"⟩, ⟨[120], "text/plain"⟩,
    none, ⟨[], ""⟩, none, ⟨[], ""⟩, true, true⟩

theorem c10_conflict_reachability_witness :
    norm_data (effW c10wInp) = norm_data (effX c10wInp) :=
  (c10_conflict_reachability c10wSt c10wInp (by decide)).1
